import Mathlib

/-
  Verification development for the DeepFRET-GUI histogram pipeline
  (`src/main/python/widgets/histogram_window.py` and the generated
  inspector layout `src/main/python/ui/_DensityWindowInspector.py`).

  Shallow embedding conventions:
  * Python floats are rationals; a possibly-NaN float is `Val := Option ℚ`
    with `none` standing for NaN.
  * Python `None` for a whole sequence is an outer `Option (List Val)`.
  * The helpers from `lib.math` (drop_bleached_frames, trim_ES,
    contains_nan, beta_gamma_factor, fit_gaussian_mixture, contour_2d)
    are not part of the excerpt; they are modelled from the spec, or kept
    abstract as function parameters where the spec leaves them external.
  * GUI collaborator calls that may raise are modelled by a `CanvasEnv`
    record of `Option PyErr` outcomes (`none` = the call succeeds).
-/

namespace DeepFRET

/-- A floating-point sample; `none` models NaN. -/
abbrev Val := Option ℚ

/-- Division that models the NaN produced by a zero denominator. -/
def safeDiv (a b : ℚ) : Val :=
  if b = 0 then none else some (a / b)

/-- `contains_nan`, modelled from the spec: whether any entry of the
sequence is NaN. -/
def containsNan (xs : List Val) : Bool :=
  xs.any (fun v => v.isNone)

/-- A trace record, mirroring the collaborator interface used by
`getHistogramData`: donor (DD) and acceptor (DA) intensity channels,
a possibly-NaN direct-excitation (AA) channel, the first bleaching
frame index (or none), blink intervals, the checked flag, and the
stoichiometry cache filled in by `calculate_stoi`. -/
structure Trace where
  dd : List ℚ
  da : List ℚ
  aa : List Val
  firstBleach : Option ℕ
  blinkIntervals : List (ℕ × ℕ)
  isChecked : Bool
  stoi : Option (List Val) := none
deriving DecidableEq

/-- Whether frame `i` falls inside some blink interval. -/
def inBlink (ivs : List (ℕ × ℕ)) (i : ℕ) : Bool :=
  ivs.any (fun p => decide (p.1 ≤ i) && decide (i ≤ p.2))

/-- Modelled from the spec (§4.2 IntensityCorrector): per-frame E and S.
The corrected acceptor signal subtracts leakage (alpha) and, when a
direct-excitation sample exists, direct excitation (delta);
E = corrected acceptor / (corrected acceptor + gamma-scaled donor);
S uses the beta/gamma-scaled total intensity and is NaN when the
direct-excitation channel is NaN. -/
def frameES (alpha delta beta gamma : ℚ) (d a : ℚ) (x : Val) : Val × Val :=
  let fda : ℚ :=
    match x with
    | some xa => a - alpha * d - delta * xa
    | none => a - alpha * d
  let e : Val := safeDiv fda (fda + gamma * d)
  let s : Val :=
    match x with
    | some xa =>
        if beta = 0 then none
        else safeDiv (gamma * d + fda) (gamma * d + fda + xa / beta)
    | none => none
  (e, s)

/-- Modelled from the spec: `lib.math.drop_bleached_frames`.
Frames at/after the first bleaching index are excluded (or truncated at
`maxFrames`, whichever is more restrictive), frames inside blink
intervals are excluded, and per-frame (E, S) values are produced for the
remaining frames. Returns empty sequences when no valid frame remains. -/
def dropBleachedFrames (t : Trace) (alpha delta beta gamma : ℚ)
    (maxFrames : Option ℕ) : List Val × List Val :=
  let n := t.dd.length
  let endFrame := min (t.firstBleach.getD n) (maxFrames.getD n)
  let idx := (List.range endFrame).filter (fun i => ¬ inBlink t.blinkIntervals i)
  let es := idx.filterMap (fun i =>
    match t.dd[i]?, t.da[i]?, t.aa[i]? with
    | some d, some a, some x => some (frameES alpha delta beta gamma d a x)
    | _, _, _ => none)
  (es.map Prod.fst, es.map Prod.snd)

/-- Modelled from the spec: `lib.math.trim_ES` (§4.3 together with the
non-ALEX scenario of §8.6). When the stoichiometry sequence contains NaN
(non-ALEX data), only the NaN entries of E are dropped and S is returned
as-is; otherwise rows in which either value is NaN are removed pairwise. -/
def trim_ES (E S : List Val) : List Val × List Val :=
  if containsNan S then
    (E.filter (fun v => ¬ v.isNone), S)
  else
    let es := (E.zip S).filter (fun p => ¬ (p.1.isNone || p.2.isNone))
    (es.map Prod.fst, es.map Prod.snd)

/-- Modelled from the spec: `lib.math.exclude_blink_intervals` — frames
inside any blink interval are removed, excess indices silently clipped. -/
def excludeBlinkIntervals (xs : List ℚ) (ivs : List (ℕ × ℕ)) : List ℚ :=
  xs.enum.filterMap (fun p => if inBlink ivs p.1 then none else some p.2)

/-- Modelled from the spec: `trace.calculate_stoi()` — fills the trace's
stoichiometry cache from its raw intensities, changing nothing else. -/
def calculateStoi (t : Trace) : Trace :=
  { t with stoi := some ((t.dd.zip (t.da.zip t.aa)).map (fun p =>
      match p.2.2 with
      | some x => safeDiv (p.1 + p.2.1) (p.1 + p.2.1 + x)
      | none => none)) }

/-- The per-trace DD/DA channel slices pooled by `getHistogramData`:
`I_DD[:end_frame]` and `I_DA[:end_frame]` with blink frames excluded
(`end_frame` from `first_bleach`, or the full length). -/
def ddda (t : Trace) : List ℚ × List ℚ :=
  let endFrame := t.firstBleach.getD t.dd.length
  (excludeBlinkIntervals (t.dd.take endFrame) t.blinkIntervals,
   excludeBlinkIntervals (t.da.take endFrame) t.blinkIntervals)

/-- Pooled (E_app, S_app) over a list of traces: concatenation of the
per-trace `drop_bleached_frames` outputs, in trace order. -/
def pooledES (traces : List Trace) (alpha delta beta gamma : ℚ)
    (nf : Option ℕ) : List Val × List Val :=
  let es := traces.map (fun t => dropBleachedFrames t alpha delta beta gamma nf)
  ((es.map Prod.fst).flatten, (es.map Prod.snd).flatten)

/-- The mutable fields of `HistogramWindow` touched by the pipeline.
An outer `none` models Python `None`. `applyCorrections` is the state of
the apply-corrections checkbox. -/
structure HistState where
  E : Option (List Val) := none
  S : Option (List Val) := none
  DD : List ℚ := []
  DA : List ℚ := []
  E_un : Option (List Val) := none
  S_un : Option (List Val) := none
  alpha : Option ℚ := none
  delta : Option ℚ := none
  beta : Option ℚ := none
  gamma : Option ℚ := none
  gauss_params : Option (List (ℚ × ℚ × ℚ)) := none
  best_k : Option ℕ := none
  n_samples : ℕ := 0
  n_points : ℕ := 0
  applyCorrections : Bool := false
deriving DecidableEq

/-- The body of `HistogramWindow.getHistogramData` acting on the list of
checked traces: pooling, trimming, count bookkeeping, and the guarded
ensemble-correction pass. `bg` abstracts `lib.math.beta_gamma_factor`
(the spec leaves the exact regression external); `st0` is the window
state after the initial field reset. -/
def aggregate (bg : List Val → List Val → ℚ × ℚ)
    (checked : List Trace) (alpha delta : ℚ) (nf : Option ℕ)
    (st0 : HistState) : HistState :=
  let pooled := pooledES checked alpha delta 1 1 nf
  let trimmed := trim_ES pooled.1 pooled.2
  let eUn := trimmed.1
  let sUn := trimmed.2
  let base : HistState :=
    { st0 with
      E_un := some eUn
      S_un := some sUn
      DD := (checked.map (fun t => (ddda t).1)).flatten
      DA := (checked.map (fun t => (ddda t).2)).flatten
      n_samples := checked.length
      n_points := eUn.length
      alpha := some alpha
      delta := some delta }
  if containsNan sUn then
    { base with E := some eUn }
  else if 0 < eUn.length then
    let bgr := bg eUn sUn
    let pooled2 := pooledES checked alpha delta bgr.1 bgr.2 nf
    let trimmed2 := trim_ES pooled2.1 pooled2.2
    { base with
        E := some trimmed2.1
        S := some trimmed2.2
        beta := some bgr.1
        gamma := some bgr.2 }
  else base

/-- The mutation `getHistogramData` applies to the trace collection:
every checked trace gets its stoichiometry cache recomputed
(`trace.calculate_stoi()`); unchecked traces are untouched. -/
def updTrace (t : Trace) : Trace :=
  if t.isChecked then calculateStoi t else t

/-- The field reset at the top of `getHistogramData` (`self.none_`):
E, S, DD, DA, E_un and S_un are cleared; nothing else
(in particular not `beta`/`gamma`). -/
def resetState (st : HistState) : HistState :=
  { st with E := none, S := none, DD := [], DA := [], E_un := none, S_un := none }

/-- `HistogramWindow.getHistogramData`: resets E, S, DD, DA, E_un, S_un
(and only those — `beta`/`gamma` are not reset, exactly as in the
source), selects the checked traces, and runs `aggregate` on them.
Returns the updated window state together with the trace collection
after the per-trace `calculate_stoi` side effect. -/
def getHistogramData (bg : List Val → List Val → ℚ × ℚ)
    (traces : List Trace) (alpha delta : ℚ) (nf : Option ℕ)
    (st : HistState) : HistState × List Trace :=
  (aggregate bg (traces.filter (fun t => t.isChecked)) alpha delta nf (resetState st),
   traces.map updTrace)

/-- A Python exception class relevant to `refreshPlot`'s handler. -/
inductive PyErr
  | attrErr
  | valueErr
  | otherErr
deriving DecidableEq

/-- Outcomes of the GUI/plotting collaborator calls made during a
refresh; `none` means the call returns normally, `some e` that it raises
`e`. The pipeline itself is total; only these external calls can raise. -/
structure CanvasEnv where
  axClear : Option PyErr := none
  defaultElements : Option PyErr := none
  top : Option PyErr := none
  center : Option PyErr := none
  right : Option PyErr := none
  draw : Option PyErr := none
deriving DecidableEq

/-- `HistogramWindow.plotAll`: plotTop, then (only when `self.S` is not
None) plotCenter and plotRight, then `canvas.draw()`. Returns the first
exception raised, if any. -/
def plotAll (env : CanvasEnv) (st : HistState) : Option PyErr :=
  match env.top with
  | some e => some e
  | none =>
    if st.S.isSome then
      match env.center with
      | some e => some e
      | none =>
        match env.right with
        | some e => some e
        | none => env.draw
    else env.draw

/-- Result of a refresh: the window state, the trace collection, which
dataset was handed to `plotAll` (`some corrected?`, `none` when plotting
was not reached), and the exception propagating out of `refreshPlot`
(`none` when it returns normally). -/
structure RefreshOut where
  st : HistState
  traces : List Trace
  plotted : Option Bool
  err : Option PyErr
deriving DecidableEq

/-- The body of the `try:` block of `HistogramWindow.refreshPlot`:
`getHistogramData()`, clearing the axes, forcing the apply-corrections
checkbox off when corrected S is absent, and plotting. `err` is the
exception raised inside the block, if any; the state mutations performed
before the raise are kept, as in Python. -/
def refreshTry (env : CanvasEnv) (bg : List Val → List Val → ℚ × ℚ)
    (traces : List Trace) (alpha delta : ℚ) (st : HistState) : RefreshOut :=
  let r := getHistogramData bg traces alpha delta none st
  let st1 := r.1
  let tr1 := r.2
  match env.axClear with
  | some e => ⟨st1, tr1, none, some e⟩
  | none =>
    if st1.E.isSome then
      let st2 := if st1.S.isNone then { st1 with applyCorrections := false } else st1
      match env.defaultElements with
      | some e => ⟨st2, tr1, none, some e⟩
      | none => ⟨st2, tr1, some st2.applyCorrections, plotAll env st2⟩
    else
      match env.defaultElements with
      | some e => ⟨st1, tr1, none, some e⟩
      | none => ⟨st1, tr1, none, none⟩

/-- `HistogramWindow.refreshPlot`: runs the try-block, swallows
`AttributeError` and `ValueError` (and only those), then — outside the
handler — calls `plotDefaultElements()` and `canvas.draw()` again, whose
exceptions are not caught. -/
def refreshPlot (env : CanvasEnv) (bg : List Val → List Val → ℚ × ℚ)
    (traces : List Trace) (alpha delta : ℚ) (st : HistState) : RefreshOut :=
  let t := refreshTry env bg traces alpha delta st
  match t.err with
  | some PyErr.otherErr => { t with err := some PyErr.otherErr }
  | _ =>
    match env.defaultElements with
    | some e => { t with err := some e }
    | none =>
      match env.draw with
      | some e => { t with err := some e }
      | none => { t with err := none }

/-- `HistogramWindow.fitGaussians` (state update only; the trailing
`refreshPlot()` call is modelled separately). `oracle` abstracts
`lib.math.fit_gaussian_mixture`, consulted only when the selected E has
at least 2 points. In auto mode the component-count range is (1, 6),
otherwise the spin-box value is used for both bounds. -/
def fitGaussians (oracle : List Val → ℕ → ℕ → List (ℚ × ℚ × ℚ) × ℕ)
    (autoMode : Bool) (spin : ℕ) (st : HistState) : HistState :=
  let eSel := if st.applyCorrections then st.E else st.E_un
  match eSel with
  | some l =>
    if 2 ≤ l.length then
      let pr := if autoMode then oracle l 1 6 else oracle l spin spin
      { st with gauss_params := some pr.1, best_k := some pr.2 }
    else
      { st with gauss_params := none, best_k := none }
  | none => { st with gauss_params := none, best_k := none }

/-- The (minimum, maximum, initial value) of a slider as configured in
`Ui_DensityWindowInspector.setupUi`. -/
structure SliderSpec where
  minimum : ℤ
  maximum : ℤ
  initial : ℤ
deriving DecidableEq

/-- `smoothingSlider`: setMinimum(1), setMaximum(20), value 10. -/
def smoothingSlider : SliderSpec := ⟨1, 20, 10⟩

/-- `resolutionSlider`: setMinimum(10), setMaximum(100), value 50. -/
def resolutionSlider : SliderSpec := ⟨10, 100, 50⟩

/-- `colorSlider`: setMinimum(1), setMaximum(20), value 3. -/
def colorSlider : SliderSpec := ⟨1, 20, 3⟩

/-- `pointAlphaSlider`: setMinimum(0), setMaximum(20), value 10. -/
def pointAlphaSlider : SliderSpec := ⟨0, 20, 10⟩

/-- A raw slider value the widget admits: within [minimum, maximum]. -/
def SliderSpec.admits (sl : SliderSpec) (v : ℤ) : Prop :=
  sl.minimum ≤ v ∧ v ≤ sl.maximum

/-- The ordered 9-field inspector parameter tuple unpacked by
`HistogramWindow.plotCenter`. -/
structure InspectorParams where
  bandwidth : ℤ
  resolution : ℤ
  nColors : ℤ
  overlayPts : Bool
  ptsAlpha : ℤ
  showDensity : Bool
  eColor : String
  sColor : String
  cmap : String
deriving DecidableEq

/-- The argument tuple `plotCenter` hands to `lib.math.contour_2d`. -/
structure ContourCall where
  xdata : List Val
  ydata : List Val
  bandwidth : ℚ
  resolution : ℤ
  kernel : String
  nColors : ℤ
deriving DecidableEq

/-- The `contour_2d` call issued by `HistogramWindow.plotCenter`:
only when `show_density` is set, with `bandwidth=bandwidth / 200`,
`kernel="linear"`. -/
def plotCenterContour (p : InspectorParams) (E S : List Val) :
    Option ContourCall :=
  if p.showDensity then
    some ⟨E, S, (p.bandwidth : ℚ) / 200, p.resolution, "linear", p.nColors⟩
  else none

/-! ### Export model (`HistogramWindow.exportHistogramData`)

The exported file is a header block followed by a tab-separated table of
E (and S, for ALEX data) rounded to 4 decimals, NaN rendered as the
literal `NaN`. Cells are modelled as `List Char`; a row is the list of
its tab-separated cells. `round4`/`renderCell` model
`DataFrame.round(4)` plus `to_csv(..., na_rep="NaN")`, and `parseCell`
models re-parsing a cell of the table. -/

/-- Rounding to 4 decimal places, as `DataFrame.round(4)` does. -/
def round4 (q : ℚ) : ℚ := (round (q * 10000) : ℤ) / 10000

/-- The integer numerator of `round4 q` over 10000. -/
def scaled4 (q : ℚ) : ℤ := round (q * 10000)

/-- The decimal digits of `n`, most significant first, as characters. -/
def natChars (n : ℕ) : List Char :=
  if n = 0 then ['0'] else ((Nat.digits 10 n).map Nat.digitChar).reverse

/-- Exactly four decimal digits (for the fractional part, `n < 10000`). -/
def pad4 (n : ℕ) : List Char :=
  [Nat.digitChar (n / 1000), Nat.digitChar (n / 100 % 10),
   Nat.digitChar (n / 10 % 10), Nat.digitChar (n % 10)]

/-- The fixed-4-decimals rendering of the rational `m / 10000`. -/
def renderScaled (m : ℤ) : List Char :=
  (if m < 0 then ['-'] else []) ++
    natChars (m.natAbs / 10000) ++ '.' :: pad4 (m.natAbs % 10000)

/-- One table cell: a number rounded to 4 decimals, or the literal
`NaN`. -/
def renderCell : Val → List Char
  | none => ['N', 'a', 'N']
  | some q => renderScaled (scaled4 q)

/-- Evaluate a big-endian string of decimal digit characters. -/
def digitsVal (cs : List Char) : ℕ :=
  cs.foldl (fun a c => 10 * a + (c.toNat - 48)) 0

/-- Parse an unsigned decimal with an optional fractional part. -/
def parseAbs (cs : List Char) : ℚ :=
  let ip := cs.takeWhile (fun c => c ≠ '.')
  let fp := (cs.dropWhile (fun c => c ≠ '.')).drop 1
  (digitsVal ip : ℚ) + (digitsVal fp : ℚ) / (10 : ℚ) ^ fp.length

/-- Parse a signed decimal. -/
def parseNum (cs : List Char) : ℚ :=
  if cs.head? = some '-' then - parseAbs (cs.drop 1) else parseAbs cs

/-- Re-parse one table cell; the literal `NaN` reads back as NaN. -/
def parseCell (cs : List Char) : Val :=
  if cs = ['N', 'a', 'N'] then none else some (parseNum cs)

/-- The tab-separated table written by `exportHistogramData`: a header
row, then one row per data point. When every stoichiometry value is NaN
(non-ALEX data) only the E column is written, otherwise E and S. -/
def exportTable (E S : List Val) : List (List (List Char)) :=
  if S.all (fun v => v.isNone) then
    [['E']] :: E.map (fun v => [renderCell v])
  else
    [['E'], ['S']] :: (E.zip S).map (fun p => [renderCell p.1, renderCell p.2])

/-- Re-parse the data rows of an exported table. -/
def parseTable (rows : List (List (List Char))) : List (List Val) :=
  (rows.drop 1).map (fun row => row.map parseCell)

/-- Whether a (file-name) character string ends in `.txt`. -/
def hasTxtSuffix (cs : List Char) : Bool :=
  decide (cs.reverse.take 4 = ['t', 'x', 't', '.'])

/-- The basename: everything after the last `/`. -/
def fileBase (cs : List Char) : List Char :=
  (cs.reverse.takeWhile (fun c => c ≠ '/')).reverse

/-- The path fix-up of `exportHistogramData`: `.txt` is appended when
the chosen file name's basename lacks that extension. -/
def ensureTxt (cs : List Char) : List Char :=
  if hasTxtSuffix (fileBase cs) then cs else cs ++ ['.', 't', 'x', 't']

/-! ### Concrete instances used as witnesses and counterexamples -/

/-- A trivial stand-in for the external beta/gamma estimator. -/
def bg0 : List Val → List Val → ℚ × ℚ := fun _ _ => (1, 1)

/-- A stand-in mixture-fitting routine. -/
def oracle0 : List Val → ℕ → ℕ → List (ℚ × ℚ × ℚ) × ℕ :=
  fun _ _ _ => ([], 1)

/-- A second, observably different stand-in mixture-fitting routine. -/
def oracle1 : List Val → ℕ → ℕ → List (ℚ × ℚ × ℚ) × ℕ :=
  fun _ _ _ => ([(0, 1, 1)], 2)

/-- A checked non-ALEX trace: one frame, donor 1, acceptor 1, NaN
direct-excitation channel, no bleaching, no blinks. -/
def tNaN : Trace := ⟨[1], [1], [none], none, [], true, none⟩

/-- A checked ALEX trace: one frame, all channels 1, no bleaching. -/
def tAlex : Trace := ⟨[1], [1], [some 1], none, [], true, none⟩

/-- A checked trace that bleaches at frame 0. -/
def tB0 : Trace := ⟨[1, 1], [1, 1], [some 1, some 1], some 0, [], true, none⟩

/-- An unchecked trace. -/
def tUnchecked : Trace := ⟨[1], [1], [some 1], none, [], false, none⟩

/-- A canvas whose `plotDefaultElements` raises `AttributeError` and
whose other calls succeed. -/
def envBadDefaults : CanvasEnv := { defaultElements := some PyErr.attrErr }

/-- A canvas whose axis-clearing call raises `ValueError` and whose
other calls succeed. -/
def envValueClear : CanvasEnv := { axClear := some PyErr.valueErr }

/-- An external-call outcome the `except (AttributeError, ValueError)`
handler can absorb: normal return, `AttributeError`, or `ValueError`. -/
def caughtClass (e : Option PyErr) : Prop :=
  e = none ∨ e = some PyErr.attrErr ∨ e = some PyErr.valueErr

/-- A window state whose uncorrected E holds exactly one point. -/
def stOnePoint : HistState := { E_un := some [some (1 / 2)] }

/-- A concrete inspector parameter tuple with `show_density` enabled. -/
def paramsShow : InspectorParams :=
  ⟨10, 50, 3, false, 10, true, "orange", "purple", "plasma"⟩

/-! ### Field lemmas about the aggregation pass -/

lemma aggregate_E_un (bg : List Val → List Val → ℚ × ℚ) (c : List Trace)
    (alpha delta : ℚ) (nf : Option ℕ) (st0 : HistState) :
    (aggregate bg c alpha delta nf st0).E_un
      = some (trim_ES (pooledES c alpha delta 1 1 nf).1
          (pooledES c alpha delta 1 1 nf).2).1 := by
  unfold aggregate
  dsimp only
  split
  · rfl
  · split <;> rfl

lemma aggregate_S_un (bg : List Val → List Val → ℚ × ℚ) (c : List Trace)
    (alpha delta : ℚ) (nf : Option ℕ) (st0 : HistState) :
    (aggregate bg c alpha delta nf st0).S_un
      = some (trim_ES (pooledES c alpha delta 1 1 nf).1
          (pooledES c alpha delta 1 1 nf).2).2 := by
  unfold aggregate
  dsimp only
  split
  · rfl
  · split <;> rfl

lemma aggregate_n_samples (bg : List Val → List Val → ℚ × ℚ) (c : List Trace)
    (alpha delta : ℚ) (nf : Option ℕ) (st0 : HistState) :
    (aggregate bg c alpha delta nf st0).n_samples = c.length := by
  unfold aggregate
  dsimp only
  split
  · rfl
  · split <;> rfl

lemma aggregate_n_points (bg : List Val → List Val → ℚ × ℚ) (c : List Trace)
    (alpha delta : ℚ) (nf : Option ℕ) (st0 : HistState) :
    (aggregate bg c alpha delta nf st0).n_points
      = (trim_ES (pooledES c alpha delta 1 1 nf).1
          (pooledES c alpha delta 1 1 nf).2).1.length := by
  unfold aggregate
  dsimp only
  split
  · rfl
  · split <;> rfl

lemma dropBleached_bleachZero (t : Trace) (alpha delta beta gamma : ℚ)
    (nf : Option ℕ) (h : t.firstBleach = some 0) :
    dropBleachedFrames t alpha delta beta gamma nf = ([], []) := by
  unfold dropBleachedFrames
  rw [h]
  simp

lemma pooledES_middle_trivial (c1 c2 : List Trace) (t : Trace)
    (alpha delta beta gamma : ℚ) (nf : Option ℕ)
    (h : dropBleachedFrames t alpha delta beta gamma nf = ([], [])) :
    pooledES (c1 ++ t :: c2) alpha delta beta gamma nf
      = pooledES (c1 ++ c2) alpha delta beta gamma nf := by
  unfold pooledES
  simp [List.map_append, List.flatten_append, h]

/-- Claim C1: after the aggregation pass, `n_samples` equals the number
of traces whose checked flag is true, and `n_points` equals the length
of the NaN-trimmed pooled uncorrected E sequence. -/
theorem getHistogramData_counts (bg : List Val → List Val → ℚ × ℚ)
    (traces : List Trace) (alpha delta : ℚ) (nf : Option ℕ) (st : HistState) :
    (getHistogramData bg traces alpha delta nf st).1.n_samples
        = traces.countP (fun t => t.isChecked) ∧
    (getHistogramData bg traces alpha delta nf st).1.n_points
        = (trim_ES
            (pooledES (traces.filter (fun t => t.isChecked)) alpha delta 1 1 nf).1
            (pooledES (traces.filter (fun t => t.isChecked)) alpha delta 1 1 nf).2).1.length := by
  constructor
  · rw [List.countP_eq_length_filter]
    exact aggregate_n_samples bg (traces.filter (fun t => t.isChecked)) alpha delta nf _
  · exact aggregate_n_points bg (traces.filter (fun t => t.isChecked)) alpha delta nf _

/-- Claim C6: a checked trace whose bleaching index is 0 contributes
zero frames — inserting it anywhere in the collection leaves the pooled
E_un and `n_points` unchanged while `n_samples` grows by one. -/
theorem bleachZero_contributes_nothing (bg : List Val → List Val → ℚ × ℚ)
    (t : Trace) (l1 l2 : List Trace) (alpha delta : ℚ) (nf : Option ℕ)
    (st st' : HistState) (h0 : t.firstBleach = some 0) (hc : t.isChecked = true) :
    dropBleachedFrames t alpha delta 1 1 nf = ([], []) ∧
    (getHistogramData bg (l1 ++ t :: l2) alpha delta nf st).1.n_samples
      = (getHistogramData bg (l1 ++ l2) alpha delta nf st').1.n_samples + 1 ∧
    (getHistogramData bg (l1 ++ t :: l2) alpha delta nf st).1.n_points
      = (getHistogramData bg (l1 ++ l2) alpha delta nf st').1.n_points ∧
    (getHistogramData bg (l1 ++ t :: l2) alpha delta nf st).1.E_un
      = (getHistogramData bg (l1 ++ l2) alpha delta nf st').1.E_un := by
  have hd := dropBleached_bleachZero t alpha delta 1 1 nf h0
  have hfil : (l1 ++ t :: l2).filter (fun t => t.isChecked)
      = l1.filter (fun t => t.isChecked) ++ t :: l2.filter (fun t => t.isChecked) := by
    rw [List.filter_append, List.filter_cons_of_pos (by simpa using hc)]
  have hpool : ∀ beta gamma : ℚ,
      pooledES ((l1 ++ t :: l2).filter (fun t => t.isChecked)) alpha delta beta gamma nf
        = pooledES ((l1 ++ l2).filter (fun t => t.isChecked)) alpha delta beta gamma nf := by
    intro beta gamma
    rw [hfil, List.filter_append,
      pooledES_middle_trivial _ _ t alpha delta beta gamma nf
        (dropBleached_bleachZero t alpha delta beta gamma nf h0)]
  refine ⟨hd, ?_, ?_, ?_⟩
  · show (aggregate bg _ alpha delta nf _).n_samples
      = (aggregate bg _ alpha delta nf _).n_samples + 1
    rw [aggregate_n_samples, aggregate_n_samples, hfil, List.filter_append]
    simp
    omega
  · show (aggregate bg _ alpha delta nf _).n_points
      = (aggregate bg _ alpha delta nf _).n_points
    rw [aggregate_n_points, aggregate_n_points, hpool]
  · show (aggregate bg _ alpha delta nf _).E_un
      = (aggregate bg _ alpha delta nf _).E_un
    rw [aggregate_E_un, aggregate_E_un, hpool]

/-- Witness for C6 at a concrete bleach-at-0 trace inserted before one
ordinary ALEX trace. -/
theorem bleachZero_contributes_nothing_witness :
    tB0.firstBleach = some 0 ∧ tB0.isChecked = true ∧
    (dropBleachedFrames tB0 0 0 1 1 none = ([], []) ∧
     (getHistogramData bg0 ([] ++ tB0 :: [tAlex]) 0 0 none {}).1.n_samples
       = (getHistogramData bg0 ([] ++ [tAlex]) 0 0 none {}).1.n_samples + 1 ∧
     (getHistogramData bg0 ([] ++ tB0 :: [tAlex]) 0 0 none {}).1.n_points
       = (getHistogramData bg0 ([] ++ [tAlex]) 0 0 none {}).1.n_points ∧
     (getHistogramData bg0 ([] ++ tB0 :: [tAlex]) 0 0 none {}).1.E_un
       = (getHistogramData bg0 ([] ++ [tAlex]) 0 0 none {}).1.E_un) :=
  ⟨rfl, rfl, bleachZero_contributes_nothing bg0 tB0 [] [tAlex] 0 0 none {} {} rfl rfl⟩

/-- Claim C3: every raw smoothing-slider value the inspector admits is
divided by 200 on its way into `contour_2d`, and the normalized
bandwidth lies in [0.005, 0.5]. -/
theorem smoothing_bandwidth_normalized (raw : ℤ)
    (h : smoothingSlider.admits raw) (p : InspectorParams)
    (hbw : p.bandwidth = raw) (hsd : p.showDensity = true) (E S : List Val) :
    ∃ c, plotCenterContour p E S = some c ∧
      c.bandwidth = (raw : ℚ) / 200 ∧
      (5 : ℚ) / 1000 ≤ c.bandwidth ∧ c.bandwidth ≤ (5 : ℚ) / 10 := by
  obtain ⟨h1, h2⟩ := h
  have q1 : (1 : ℚ) ≤ (raw : ℚ) := by exact_mod_cast h1
  have q2 : (raw : ℚ) ≤ 20 := by exact_mod_cast h2
  refine ⟨⟨E, S, (p.bandwidth : ℚ) / 200, p.resolution, "linear", p.nColors⟩, ?_, ?_, ?_, ?_⟩
  · simp [plotCenterContour, hsd]
  · simp [hbw]
  · simp only [hbw]
    linarith
  · simp only [hbw]
    linarith

/-- Witness for C3 at the slider's initial value 10. -/
theorem smoothing_bandwidth_normalized_witness :
    smoothingSlider.admits 10 ∧ paramsShow.bandwidth = 10 ∧
    ∃ c, plotCenterContour paramsShow [] [] = some c ∧
      c.bandwidth = (10 : ℚ) / 200 ∧
      (5 : ℚ) / 1000 ≤ c.bandwidth ∧ c.bandwidth ≤ (5 : ℚ) / 10 :=
  ⟨⟨by decide, by decide⟩, rfl,
   smoothing_bandwidth_normalized 10 ⟨by decide, by decide⟩ paramsShow rfl rfl [] []⟩

lemma trim_snd_nil (E S : List Val) (h : (trim_ES E S).2 = []) :
    (trim_ES E S).1 = [] := by
  unfold trim_ES at h ⊢
  by_cases hna : containsNan S = true
  · rw [if_pos hna] at h
    dsimp at h
    subst h
    simp [containsNan] at hna
  · rw [if_neg hna] at h ⊢
    dsimp at h ⊢
    rw [List.map_eq_nil_iff] at h ⊢
    exact h

lemma aggregate_nan_branch (bg : List Val → List Val → ℚ × ℚ) (c : List Trace)
    (alpha delta : ℚ) (nf : Option ℕ) (st0 : HistState)
    (h : containsNan (trim_ES (pooledES c alpha delta 1 1 nf).1
          (pooledES c alpha delta 1 1 nf).2).2 = true) :
    (aggregate bg c alpha delta nf st0).S = st0.S ∧
    (aggregate bg c alpha delta nf st0).E
      = some (trim_ES (pooledES c alpha delta 1 1 nf).1
          (pooledES c alpha delta 1 1 nf).2).1 ∧
    (aggregate bg c alpha delta nf st0).beta = st0.beta ∧
    (aggregate bg c alpha delta nf st0).gamma = st0.gamma := by
  unfold aggregate
  dsimp only
  rw [if_pos h]
  exact ⟨rfl, rfl, rfl, rfl⟩

lemma aggregate_empty_branch (bg : List Val → List Val → ℚ × ℚ) (c : List Trace)
    (alpha delta : ℚ) (nf : Option ℕ) (st0 : HistState)
    (hnan : containsNan (trim_ES (pooledES c alpha delta 1 1 nf).1
          (pooledES c alpha delta 1 1 nf).2).2 = false)
    (hlen : (trim_ES (pooledES c alpha delta 1 1 nf).1
          (pooledES c alpha delta 1 1 nf).2).1.length = 0) :
    (aggregate bg c alpha delta nf st0).E = st0.E ∧
    (aggregate bg c alpha delta nf st0).S = st0.S ∧
    (aggregate bg c alpha delta nf st0).beta = st0.beta ∧
    (aggregate bg c alpha delta nf st0).gamma = st0.gamma := by
  unfold aggregate
  dsimp only
  rw [if_neg (by simp [hnan]), if_neg (by omega)]
  exact ⟨rfl, rfl, rfl, rfl⟩

/-- Claim C2 (amended): when the pooled uncorrected stoichiometry
contains a NaN, ensemble correction is skipped (beta/gamma untouched),
corrected S stays absent and corrected E falls back to the uncorrected
E_un; when it is NaN-free but empty, correction is likewise skipped and
corrected E and S both stay absent — E remains None rather than falling
back to E_un. -/
theorem correction_skip (bg : List Val → List Val → ℚ × ℚ)
    (traces : List Trace) (alpha delta : ℚ) (nf : Option ℕ) (st : HistState)
    (sUn : List Val)
    (hS : (getHistogramData bg traces alpha delta nf st).1.S_un = some sUn)
    (hcond : containsNan sUn = true ∨ sUn = []) :
    (getHistogramData bg traces alpha delta nf st).1.S = none ∧
    (getHistogramData bg traces alpha delta nf st).1.beta = st.beta ∧
    (getHistogramData bg traces alpha delta nf st).1.gamma = st.gamma ∧
    (containsNan sUn = true →
      (getHistogramData bg traces alpha delta nf st).1.E
        = (getHistogramData bg traces alpha delta nf st).1.E_un) ∧
    (sUn = [] → (getHistogramData bg traces alpha delta nf st).1.E = none) := by
  have hgh : (getHistogramData bg traces alpha delta nf st).1
      = aggregate bg (traces.filter (fun t => t.isChecked)) alpha delta nf
          (resetState st) := rfl
  rw [hgh] at hS ⊢
  have hsUn : sUn = (trim_ES
      (pooledES (traces.filter (fun t => t.isChecked)) alpha delta 1 1 nf).1
      (pooledES (traces.filter (fun t => t.isChecked)) alpha delta 1 1 nf).2).2 := by
    rw [aggregate_S_un] at hS
    exact (Option.some_injective _ hS).symm
  rcases hcond with hnan | hemp
  · have hb := aggregate_nan_branch bg (traces.filter (fun t => t.isChecked))
      alpha delta nf (resetState st) (hsUn ▸ hnan)
    refine ⟨hb.1, hb.2.2.1, hb.2.2.2, ?_, ?_⟩
    · intro _
      rw [hb.2.1, aggregate_E_un]
    · intro he
      rw [he] at hnan
      simp [containsNan] at hnan
  · have hnan' : containsNan (trim_ES
        (pooledES (traces.filter (fun t => t.isChecked)) alpha delta 1 1 nf).1
        (pooledES (traces.filter (fun t => t.isChecked)) alpha delta 1 1 nf).2).2
          = false := by
      rw [← hsUn, hemp]
      rfl
    have hlen : (trim_ES
        (pooledES (traces.filter (fun t => t.isChecked)) alpha delta 1 1 nf).1
        (pooledES (traces.filter (fun t => t.isChecked)) alpha delta 1 1 nf).2).1.length
          = 0 := by
      rw [trim_snd_nil _ _ (by rw [← hsUn, hemp])]
      rfl
    have hb := aggregate_empty_branch bg (traces.filter (fun t => t.isChecked))
      alpha delta nf (resetState st) hnan' hlen
    refine ⟨hb.2.1, hb.2.2.1, hb.2.2.2, ?_, fun _ => hb.1⟩
    intro hna
    rw [hemp] at hna
    simp [containsNan] at hna

/-- Counterexample to C2 as stated: with no checked traces the pooled
S_un is empty, correction is skipped, but the corrected E does not fall
back to E_un — it stays absent (None) while E_un is the empty sequence. -/
theorem correction_skip_counterexample :
    (getHistogramData bg0 [] 0 0 none {}).1.S_un = some [] ∧
    (getHistogramData bg0 [] 0 0 none {}).1.E = none ∧
    (getHistogramData bg0 [] 0 0 none {}).1.E_un = some [] ∧
    (getHistogramData bg0 [] 0 0 none {}).1.E
      ≠ (getHistogramData bg0 [] 0 0 none {}).1.E_un := by
  refine ⟨rfl, rfl, rfl, ?_⟩
  decide

/-- Witness for the amended C2 at a concrete non-ALEX trace whose pooled
stoichiometry is all-NaN. -/
theorem correction_skip_witness :
    (getHistogramData bg0 [tNaN] 0 0 none {}).1.S_un = some [none] ∧
    containsNan [none] = true ∧
    ((getHistogramData bg0 [tNaN] 0 0 none {}).1.S = none ∧
     (getHistogramData bg0 [tNaN] 0 0 none {}).1.beta = (({} : HistState)).beta ∧
     (getHistogramData bg0 [tNaN] 0 0 none {}).1.gamma = (({} : HistState)).gamma ∧
     (containsNan [none] = true →
       (getHistogramData bg0 [tNaN] 0 0 none {}).1.E
         = (getHistogramData bg0 [tNaN] 0 0 none {}).1.E_un) ∧
     (([none] : List Val) = [] →
       (getHistogramData bg0 [tNaN] 0 0 none {}).1.E = none)) :=
  ⟨rfl, rfl, correction_skip bg0 [tNaN] 0 0 none {} [none] rfl (Or.inl rfl)⟩

/-- Claim C7: with no checked trace the aggregation pass yields
`n_samples = 0`, `n_points = 0`, absent corrected E and S, and the
subsequent refresh (with canvas calls that return normally) completes
without raising. -/
theorem no_checked_traces (bg : List Val → List Val → ℚ × ℚ)
    (traces : List Trace) (alpha delta : ℚ) (st : HistState) (env : CanvasEnv)
    (h : ∀ t ∈ traces, t.isChecked = false)
    (ha : env.axClear = none) (hd : env.defaultElements = none)
    (hw : env.draw = none) :
    (getHistogramData bg traces alpha delta none st).1.n_samples = 0 ∧
    (getHistogramData bg traces alpha delta none st).1.n_points = 0 ∧
    (getHistogramData bg traces alpha delta none st).1.E = none ∧
    (getHistogramData bg traces alpha delta none st).1.S = none ∧
    (refreshPlot env bg traces alpha delta st).err = none := by
  have hfil : traces.filter (fun t => t.isChecked) = [] :=
    List.filter_eq_nil_iff.mpr (fun a ha' => by simp [h a ha'])
  have hgh : (getHistogramData bg traces alpha delta none st).1
      = aggregate bg [] alpha delta none (resetState st) := by
    show aggregate bg (traces.filter (fun t => t.isChecked)) alpha delta none
        (resetState st) = _
    rw [hfil]
  have hb := aggregate_empty_branch bg [] alpha delta none (resetState st) rfl rfl
  have hE : (getHistogramData bg traces alpha delta none st).1.E = none := by
    rw [hgh]
    exact hb.1
  refine ⟨?_, ?_, hE, ?_, ?_⟩
  · rw [hgh, aggregate_n_samples]
    rfl
  · rw [hgh, aggregate_n_points]
    rfl
  · rw [hgh]
    exact hb.2.1
  · unfold refreshPlot refreshTry
    rw [ha, hd, hw]
    dsimp only
    rw [hE]
    rfl

/-- Witness for C7 at a collection of three unchecked traces and a
well-behaved canvas. -/
theorem no_checked_traces_witness :
    (∀ t ∈ [tUnchecked, tUnchecked, tUnchecked], t.isChecked = false) ∧
    ((getHistogramData bg0 [tUnchecked, tUnchecked, tUnchecked] 0 0 none {}).1.n_samples = 0 ∧
     (getHistogramData bg0 [tUnchecked, tUnchecked, tUnchecked] 0 0 none {}).1.n_points = 0 ∧
     (getHistogramData bg0 [tUnchecked, tUnchecked, tUnchecked] 0 0 none {}).1.E = none ∧
     (getHistogramData bg0 [tUnchecked, tUnchecked, tUnchecked] 0 0 none {}).1.S = none ∧
     (refreshPlot {} bg0 [tUnchecked, tUnchecked, tUnchecked] 0 0 {}).err = none) :=
  ⟨by intro t ht; simp only [List.mem_cons, List.not_mem_nil, or_false] at ht
      rcases ht with rfl | rfl | rfl <;> rfl,
   no_checked_traces bg0 [tUnchecked, tUnchecked, tUnchecked] 0 0 {} {}
     (by intro t ht; simp only [List.mem_cons, List.not_mem_nil, or_false] at ht
         rcases ht with rfl | rfl | rfl <;> rfl)
     rfl rfl rfl⟩

/-- Claim C8: when the selected E sequence is absent or has fewer than 2
points, `fitGaussians` skips fitting (the result does not depend on the
mixture-fitting routine), sets the fitted components and the best
component count to `none`, and, being total, raises nothing. -/
theorem fitGaussians_skips_short (o1 o2 : List Val → ℕ → ℕ → List (ℚ × ℚ × ℚ) × ℕ)
    (autoMode : Bool) (spin : ℕ) (st : HistState)
    (h : ∀ l, (if st.applyCorrections then st.E else st.E_un) = some l → l.length < 2) :
    fitGaussians o1 autoMode spin st = fitGaussians o2 autoMode spin st ∧
    (fitGaussians o1 autoMode spin st).gauss_params = none ∧
    (fitGaussians o1 autoMode spin st).best_k = none := by
  unfold fitGaussians
  dsimp only
  cases hE : (if st.applyCorrections then st.E else st.E_un) with
  | none => simp
  | some l =>
    have hl : l.length < 2 := h l hE
    have h2 : ¬ 2 ≤ l.length := by omega
    simp [h2]

/-- Witness for C8 on a state holding exactly one E point, with two
observably different fitting routines. -/
theorem fitGaussians_skips_short_witness :
    stOnePoint.E_un = some [some (1 / 2)] ∧ stOnePoint.applyCorrections = false ∧
    (fitGaussians oracle0 true 1 stOnePoint = fitGaussians oracle1 true 1 stOnePoint ∧
     (fitGaussians oracle0 true 1 stOnePoint).gauss_params = none ∧
     (fitGaussians oracle0 true 1 stOnePoint).best_k = none) :=
  ⟨rfl, rfl,
   fitGaussians_skips_short oracle0 oracle1 true 1 stOnePoint
     (by intro l hl; simp only [stOnePoint] at hl; simp at hl; subst hl; decide)⟩

lemma updTrace_isChecked (t : Trace) : (updTrace t).isChecked = t.isChecked := by
  unfold updTrace
  by_cases h : t.isChecked = true <;> simp [h, calculateStoi]

lemma dropBleached_updTrace (t : Trace) (alpha delta beta gamma : ℚ)
    (nf : Option ℕ) :
    dropBleachedFrames (updTrace t) alpha delta beta gamma nf
      = dropBleachedFrames t alpha delta beta gamma nf := by
  unfold updTrace
  by_cases h : t.isChecked = true <;> simp [h] <;> rfl

lemma filter_checked_updTrace (traces : List Trace) :
    (traces.map updTrace).filter (fun t => t.isChecked)
      = (traces.filter (fun t => t.isChecked)).map updTrace := by
  rw [List.filter_map]
  congr 1
  exact List.filter_congr (fun a _ => by
    simp [Function.comp, updTrace_isChecked])

lemma pooledES_updTrace (c : List Trace) (alpha delta beta gamma : ℚ)
    (nf : Option ℕ) :
    pooledES (c.map updTrace) alpha delta beta gamma nf
      = pooledES c alpha delta beta gamma nf := by
  unfold pooledES
  dsimp only
  have hmap : (c.map updTrace).map (fun t => dropBleachedFrames t alpha delta beta gamma nf)
      = c.map (fun t => dropBleachedFrames t alpha delta beta gamma nf) := by
    rw [List.map_map]
    exact List.map_congr_left (fun a _ => dropBleached_updTrace a alpha delta beta gamma nf)
  rw [hmap]

lemma aggregate_core_eq (bg : List Val → List Val → ℚ × ℚ)
    (c1 c2 : List Trace) (alpha delta : ℚ) (nf : Option ℕ) (st1 st2 : HistState)
    (hlen : c1.length = c2.length)
    (hpool : ∀ beta gamma : ℚ, pooledES c1 alpha delta beta gamma nf
        = pooledES c2 alpha delta beta gamma nf) :
    (aggregate bg c1 alpha delta nf (resetState st1)).E_un
      = (aggregate bg c2 alpha delta nf (resetState st2)).E_un ∧
    (aggregate bg c1 alpha delta nf (resetState st1)).S_un
      = (aggregate bg c2 alpha delta nf (resetState st2)).S_un ∧
    (aggregate bg c1 alpha delta nf (resetState st1)).E
      = (aggregate bg c2 alpha delta nf (resetState st2)).E ∧
    (aggregate bg c1 alpha delta nf (resetState st1)).S
      = (aggregate bg c2 alpha delta nf (resetState st2)).S ∧
    (aggregate bg c1 alpha delta nf (resetState st1)).n_samples
      = (aggregate bg c2 alpha delta nf (resetState st2)).n_samples ∧
    (aggregate bg c1 alpha delta nf (resetState st1)).n_points
      = (aggregate bg c2 alpha delta nf (resetState st2)).n_points := by
  unfold aggregate
  dsimp only
  rw [hpool 1 1, hpool _ _, hlen]
  split
  · exact ⟨rfl, rfl, rfl, rfl, rfl, rfl⟩
  · split
    · exact ⟨rfl, rfl, rfl, rfl, rfl, rfl⟩
    · exact ⟨rfl, rfl, rfl, rfl, rfl, rfl⟩

/-- Claim C9: running `getHistogramData` twice with no intervening
trace-state change yields identical PooledSample contents (E_un, S_un,
E, S, n_samples, n_points) after the second run. The only side effect of
the first run on its inputs is the per-trace stoichiometry cache, which
the pooling does not read. -/
theorem getHistogramData_idempotent (bg : List Val → List Val → ℚ × ℚ)
    (traces : List Trace) (alpha delta : ℚ) (nf : Option ℕ) (st : HistState) :
    (getHistogramData bg (getHistogramData bg traces alpha delta nf st).2
        alpha delta nf (getHistogramData bg traces alpha delta nf st).1).1.E_un
      = (getHistogramData bg traces alpha delta nf st).1.E_un ∧
    (getHistogramData bg (getHistogramData bg traces alpha delta nf st).2
        alpha delta nf (getHistogramData bg traces alpha delta nf st).1).1.S_un
      = (getHistogramData bg traces alpha delta nf st).1.S_un ∧
    (getHistogramData bg (getHistogramData bg traces alpha delta nf st).2
        alpha delta nf (getHistogramData bg traces alpha delta nf st).1).1.E
      = (getHistogramData bg traces alpha delta nf st).1.E ∧
    (getHistogramData bg (getHistogramData bg traces alpha delta nf st).2
        alpha delta nf (getHistogramData bg traces alpha delta nf st).1).1.S
      = (getHistogramData bg traces alpha delta nf st).1.S ∧
    (getHistogramData bg (getHistogramData bg traces alpha delta nf st).2
        alpha delta nf (getHistogramData bg traces alpha delta nf st).1).1.n_samples
      = (getHistogramData bg traces alpha delta nf st).1.n_samples ∧
    (getHistogramData bg (getHistogramData bg traces alpha delta nf st).2
        alpha delta nf (getHistogramData bg traces alpha delta nf st).1).1.n_points
      = (getHistogramData bg traces alpha delta nf st).1.n_points := by
  have hc : (traces.map updTrace).filter (fun t => t.isChecked)
      = (traces.filter (fun t => t.isChecked)).map updTrace :=
    filter_checked_updTrace traces
  have hlen : ((traces.map updTrace).filter (fun t => t.isChecked)).length
      = (traces.filter (fun t => t.isChecked)).length := by
    rw [hc, List.length_map]
  have hpool : ∀ beta gamma : ℚ,
      pooledES ((traces.map updTrace).filter (fun t => t.isChecked))
          alpha delta beta gamma nf
        = pooledES (traces.filter (fun t => t.isChecked)) alpha delta beta gamma nf := by
    intro beta gamma
    rw [hc]
    exact pooledES_updTrace _ alpha delta beta gamma nf
  exact aggregate_core_eq bg _ _ alpha delta nf
    (getHistogramData bg traces alpha delta nf st).1 st hlen hpool

/-- Counterexample to C4 as stated: the final `plotDefaultElements()` /
`canvas.draw()` calls of `refreshPlot` sit outside the try/except, so a
canvas whose `plotDefaultElements` raises `AttributeError` makes
`refreshPlot` propagate that exception instead of swallowing it. -/
theorem refresh_propagates_counterexample :
    (refreshPlot envBadDefaults bg0 [] 0 0 {}).err = some PyErr.attrErr := by
  rfl

lemma plotAll_benign (env : CanvasEnv) (st' : HistState)
    (ht : env.top = none) (hc : env.center = none) (hr : env.right = none)
    (hw : env.draw = none) : plotAll env st' = none := by
  unfold plotAll
  rw [ht, hc, hr, hw]
  dsimp only
  split <;> rfl

lemma plotAll_caught (env : CanvasEnv) (st' : HistState)
    (h2 : caughtClass env.top) (h3 : caughtClass env.center)
    (h4 : caughtClass env.right) (h5 : caughtClass env.draw) :
    caughtClass (plotAll env st') := by
  unfold plotAll
  (repeat' split) <;> simp_all [caughtClass]

lemma refreshTry_caught (env : CanvasEnv)
    (bg : List Val → List Val → ℚ × ℚ) (traces : List Trace)
    (alpha delta : ℚ) (st : HistState)
    (h1 : caughtClass env.axClear) (hd : env.defaultElements = none)
    (h2 : caughtClass env.top) (h3 : caughtClass env.center)
    (h4 : caughtClass env.right) (h5 : caughtClass env.draw) :
    caughtClass (refreshTry env bg traces alpha delta st).err := by
  unfold refreshTry
  dsimp only
  (repeat' split) <;>
    first
      | exact plotAll_caught env _ h2 h3 h4 h5
      | simp_all [caughtClass]

lemma refreshPlot_of_try_none (env : CanvasEnv)
    (bg : List Val → List Val → ℚ × ℚ) (traces : List Trace)
    (alpha delta : ℚ) (st : HistState)
    (hd : env.defaultElements = none) (hw : env.draw = none)
    (h : (refreshTry env bg traces alpha delta st).err = none) :
    refreshPlot env bg traces alpha delta st
      = { refreshTry env bg traces alpha delta st with err := none } := by
  unfold refreshPlot
  dsimp only
  rw [h]
  dsimp only
  rw [hd]
  dsimp only
  rw [hw]

lemma refreshTry_E_none (env : CanvasEnv)
    (bg : List Val → List Val → ℚ × ℚ) (traces : List Trace)
    (alpha delta : ℚ) (st : HistState)
    (ha : env.axClear = none) (hd : env.defaultElements = none)
    (hE : (getHistogramData bg traces alpha delta none st).1.E = none) :
    refreshTry env bg traces alpha delta st
      = ⟨(getHistogramData bg traces alpha delta none st).1,
         (getHistogramData bg traces alpha delta none st).2, none, none⟩ := by
  unfold refreshTry
  rw [ha]
  dsimp only
  rw [if_neg (by rw [hE]; simp), hd]

lemma refreshTry_E_S_none (env : CanvasEnv)
    (bg : List Val → List Val → ℚ × ℚ) (traces : List Trace)
    (alpha delta : ℚ) (st : HistState)
    (ha : env.axClear = none) (hd : env.defaultElements = none)
    (ht : env.top = none) (hc : env.center = none) (hr : env.right = none)
    (hw : env.draw = none)
    (hE : (getHistogramData bg traces alpha delta none st).1.E.isSome = true)
    (hS : (getHistogramData bg traces alpha delta none st).1.S = none) :
    refreshTry env bg traces alpha delta st
      = ⟨{ (getHistogramData bg traces alpha delta none st).1 with
            applyCorrections := false },
         (getHistogramData bg traces alpha delta none st).2, some false, none⟩ := by
  unfold refreshTry
  rw [ha]
  dsimp only
  rw [if_pos hE, if_pos (by rw [hS]; rfl), hd]
  dsimp only
  rw [plotAll_benign env _ ht hc hr hw]

lemma refreshTry_E_S_some (env : CanvasEnv)
    (bg : List Val → List Val → ℚ × ℚ) (traces : List Trace)
    (alpha delta : ℚ) (st : HistState)
    (ha : env.axClear = none) (hd : env.defaultElements = none)
    (ht : env.top = none) (hc : env.center = none) (hr : env.right = none)
    (hw : env.draw = none)
    (hE : (getHistogramData bg traces alpha delta none st).1.E.isSome = true)
    (hS : ¬ (getHistogramData bg traces alpha delta none st).1.S.isNone = true) :
    refreshTry env bg traces alpha delta st
      = ⟨(getHistogramData bg traces alpha delta none st).1,
         (getHistogramData bg traces alpha delta none st).2,
         some (getHistogramData bg traces alpha delta none st).1.applyCorrections,
         none⟩ := by
  unfold refreshTry
  rw [ha]
  dsimp only
  rw [if_pos hE, if_neg hS, hd]
  dsimp only
  rw [plotAll_benign env _ ht hc hr hw]

/-- Claim C4 (amended): every `AttributeError` or `ValueError` raised by
the pipeline stages inside the protected region of `refreshPlot` (axis
clearing and the plotting calls) is caught at the top level and
swallowed; provided the trailing `plotDefaultElements()` and
`canvas.draw()` calls — which run outside the handler — return normally,
`refreshPlot` returns without raising. -/
theorem refresh_swallows_caught (env : CanvasEnv)
    (bg : List Val → List Val → ℚ × ℚ) (traces : List Trace)
    (alpha delta : ℚ) (st : HistState)
    (hd : env.defaultElements = none) (hw : env.draw = none)
    (h1 : caughtClass env.axClear) (h2 : caughtClass env.top)
    (h3 : caughtClass env.center) (h4 : caughtClass env.right) :
    (refreshPlot env bg traces alpha delta st).err = none := by
  have h5 : caughtClass env.draw := by
    rw [hw]
    exact Or.inl rfl
  have hc := refreshTry_caught env bg traces alpha delta st h1 hd h2 h3 h4 h5
  unfold refreshPlot
  dsimp only
  rcases hc with h | h | h <;> rw [h] <;> dsimp only <;> rw [hd] <;>
    dsimp only <;> rw [hw] <;> rfl

/-- Witness for the amended C4: a `ValueError` from the axis-clearing
stage is swallowed and the refresh returns normally. -/
theorem refresh_swallows_caught_witness :
    envValueClear.axClear = some PyErr.valueErr ∧
    (refreshPlot envValueClear bg0 [] 0 0 {}).err = none :=
  ⟨rfl, refresh_swallows_caught envValueClear bg0 [] 0 0 {} rfl rfl
    (Or.inr (Or.inr rfl)) (Or.inl rfl) (Or.inl rfl) (Or.inl rfl)⟩

/-- Counterexample to C10 as stated: when E is absent the refresh
completes (no exception) without touching the apply-corrections
checkbox, so after a completed refresh the checkbox can remain checked
while corrected S does not exist. -/
theorem refresh_checkbox_counterexample :
    (refreshPlot {} bg0 [] 0 0 { applyCorrections := true }).err = none ∧
    (refreshPlot {} bg0 [] 0 0 { applyCorrections := true }).st.applyCorrections = true ∧
    (refreshPlot {} bg0 [] 0 0 { applyCorrections := true }).st.S = none := by
  exact ⟨rfl, rfl, rfl⟩

/-- Claim C10 (amended): in a refresh with a well-behaved canvas, when
pooled E is present but corrected S is absent the apply-corrections
checkbox is forced unchecked before plotting and the plot is rendered
from the uncorrected data; after a completed refresh in which plotting
occurred (E present), corrected plotting is enabled only when corrected
S exists. -/
theorem refresh_forces_uncorrected (env : CanvasEnv)
    (bg : List Val → List Val → ℚ × ℚ) (traces : List Trace)
    (alpha delta : ℚ) (st : HistState)
    (ha : env.axClear = none) (hd : env.defaultElements = none)
    (ht : env.top = none) (hc : env.center = none) (hr : env.right = none)
    (hw : env.draw = none) :
    (refreshPlot env bg traces alpha delta st).err = none ∧
    ((getHistogramData bg traces alpha delta none st).1.E.isSome = true →
      ((getHistogramData bg traces alpha delta none st).1.S = none →
        (refreshPlot env bg traces alpha delta st).st.applyCorrections = false ∧
        (refreshPlot env bg traces alpha delta st).plotted = some false) ∧
      ((refreshPlot env bg traces alpha delta st).st.applyCorrections = true →
        (refreshPlot env bg traces alpha delta st).st.S.isSome = true)) := by
  by_cases hE : (getHistogramData bg traces alpha delta none st).1.E.isSome = true
  · by_cases hS0 : (getHistogramData bg traces alpha delta none st).1.S.isNone = true
    · have hS : (getHistogramData bg traces alpha delta none st).1.S = none :=
        Option.isNone_iff_eq_none.mp hS0
      have htry := refreshTry_E_S_none env bg traces alpha delta st
        ha hd ht hc hr hw hE hS
      have hout := refreshPlot_of_try_none env bg traces alpha delta st hd hw
        (by rw [htry])
      refine ⟨by rw [hout], fun _ => ⟨fun _ => ⟨?_, ?_⟩, fun hcontra => ?_⟩⟩
      · rw [hout, htry]
      · rw [hout, htry]
      · rw [hout, htry] at hcontra
        simp at hcontra
    · have hSome : (getHistogramData bg traces alpha delta none st).1.S.isSome = true := by
        cases hval : (getHistogramData bg traces alpha delta none st).1.S with
        | none => rw [hval] at hS0; simp at hS0
        | some _ => rfl
      have htry := refreshTry_E_S_some env bg traces alpha delta st
        ha hd ht hc hr hw hE hS0
      have hout := refreshPlot_of_try_none env bg traces alpha delta st hd hw
        (by rw [htry])
      refine ⟨by rw [hout], fun _ => ⟨fun hnone => ?_, fun _ => ?_⟩⟩
      · rw [hnone] at hS0
        simp at hS0
      · rw [hout, htry]
        exact hSome
  · have hE' : (getHistogramData bg traces alpha delta none st).1.E = none := by
      cases hval : (getHistogramData bg traces alpha delta none st).1.E with
      | none => rfl
      | some _ => rw [hval] at hE; simp at hE
    have htry := refreshTry_E_none env bg traces alpha delta st ha hd hE'
    have hout := refreshPlot_of_try_none env bg traces alpha delta st hd hw
      (by rw [htry])
    exact ⟨by rw [hout], fun hcontra => absurd hcontra hE⟩

/-- Witness for the amended C10 at a non-ALEX trace (E present, S
absent) with the checkbox initially checked: the refresh forces it off
and plots the uncorrected data. -/
theorem refresh_forces_uncorrected_witness :
    (getHistogramData bg0 [tNaN] 0 0 none { applyCorrections := true }).1.E.isSome = true ∧
    (getHistogramData bg0 [tNaN] 0 0 none { applyCorrections := true }).1.S = none ∧
    ((refreshPlot {} bg0 [tNaN] 0 0 { applyCorrections := true }).st.applyCorrections = false ∧
     (refreshPlot {} bg0 [tNaN] 0 0 { applyCorrections := true }).plotted = some false) :=
  ⟨rfl, rfl,
   ((refresh_forces_uncorrected {} bg0 [tNaN] 0 0 { applyCorrections := true }
      rfl rfl rfl rfl rfl rfl).2 rfl).1 rfl⟩


lemma digitVal_digitChar (d : ℕ) (h : d < 10) :
    (Nat.digitChar d).toNat - 48 = d := by
  interval_cases d <;> rfl

lemma foldr_digits_eval (ds : List ℕ) (h : ∀ d ∈ ds, d < 10) :
    ds.foldr (fun d a => 10 * a + ((Nat.digitChar d).toNat - 48)) 0
      = Nat.ofDigits 10 ds := by
  induction ds with
  | nil => rfl
  | cons d ds ih =>
    rw [List.foldr_cons, Nat.ofDigits_cons,
      ih (fun x hx => h x (List.mem_cons_of_mem _ hx)),
      digitVal_digitChar d (h d (List.mem_cons_self _ _))]
    push_cast
    ring

lemma digitsVal_natChars (n : ℕ) : digitsVal (natChars n) = n := by
  unfold natChars
  split
  · rename_i h
    subst h
    rfl
  · unfold digitsVal
    rw [List.foldl_reverse, List.foldr_map,
      foldr_digits_eval _ (fun d hd => Nat.digits_lt_base (by norm_num) hd)]
    exact Nat.ofDigits_digits 10 n

lemma digitChar_notDotDash (d : ℕ) (h : d < 10) :
    Nat.digitChar d ≠ '.' ∧ Nat.digitChar d ≠ '-' ∧ Nat.digitChar d ≠ 'N' := by
  interval_cases d <;> exact ⟨by decide, by decide, by decide⟩

lemma natChars_digits (n : ℕ) :
    ∀ c ∈ natChars n, c ≠ '.' ∧ c ≠ '-' ∧ c ≠ 'N' := by
  intro c hc
  unfold natChars at hc
  split at hc
  · simp only [List.mem_singleton] at hc
    subst hc
    exact ⟨by decide, by decide, by decide⟩
  · rw [List.mem_reverse, List.mem_map] at hc
    obtain ⟨d, hd, rfl⟩ := hc
    exact digitChar_notDotDash d (Nat.digits_lt_base (by norm_num) hd)

lemma natChars_ne_nil (n : ℕ) : natChars n ≠ [] := by
  unfold natChars
  split
  · simp
  · rename_i h
    simp [Nat.digits_ne_nil_iff_ne_zero.mpr h]

lemma takeWhile_middle (p : Char → Bool) (l1 : List Char) (x : Char)
    (l2 : List Char) (h : ∀ a ∈ l1, p a = true) (hx : p x = false) :
    (l1 ++ x :: l2).takeWhile p = l1 ∧ (l1 ++ x :: l2).dropWhile p = x :: l2 := by
  induction l1 with
  | nil => simp [List.takeWhile_cons, List.dropWhile_cons, hx]
  | cons a l1 ih =>
    have ha : p a = true := h a (by simp)
    have ih' := ih (fun b hb => h b (by simp [hb]))
    simp [List.takeWhile_cons, List.dropWhile_cons, ha, ih'.1, ih'.2]

lemma pad4_val (n : ℕ) (h : n < 10000) : digitsVal (pad4 n) = n := by
  have h1 : n / 1000 < 10 := by omega
  have h2 : n / 100 % 10 < 10 := Nat.mod_lt _ (by norm_num)
  have h3 : n / 10 % 10 < 10 := Nat.mod_lt _ (by norm_num)
  have h4 : n % 10 < 10 := Nat.mod_lt _ (by norm_num)
  unfold digitsVal pad4
  simp only [List.foldl_cons, List.foldl_nil]
  rw [digitVal_digitChar _ h1, digitVal_digitChar _ h2,
    digitVal_digitChar _ h3, digitVal_digitChar _ h4]
  omega

lemma pad4_notDot (n : ℕ) (h : n < 10000) : ∀ c ∈ pad4 n, c ≠ '.' := by
  intro c hc
  unfold pad4 at hc
  simp only [List.mem_cons, List.not_mem_nil, or_false] at hc
  have hlt : ∀ m : ℕ, m % 10 < 10 := fun m => Nat.mod_lt _ (by norm_num)
  rcases hc with rfl | rfl | rfl | rfl
  · exact (digitChar_notDotDash _ (by omega)).1
  · exact (digitChar_notDotDash _ (hlt _)).1
  · exact (digitChar_notDotDash _ (hlt _)).1
  · exact (digitChar_notDotDash _ (hlt _)).1

lemma parseAbs_split (q r : ℕ) (hr : r < 10000) :
    parseAbs (natChars q ++ '.' :: pad4 r) = (q : ℚ) + (r : ℚ) / 10 ^ 4 := by
  unfold parseAbs
  have htw := takeWhile_middle (fun c => decide (c ≠ '.')) (natChars q) '.' (pad4 r)
    (fun a ha => by simpa using (natChars_digits q a ha).1) (by simp)
  rw [htw.1, htw.2]
  dsimp only
  rw [List.drop_one, List.tail_cons]
  rw [digitsVal_natChars, pad4_val r hr]
  rfl

lemma pad4_length (n : ℕ) : (pad4 n).length = 4 := rfl

lemma renderScaled_ne_nan (m : ℤ) : renderScaled m ≠ ['N', 'a', 'N'] := by
  intro h
  unfold renderScaled at h
  by_cases hm : m < 0
  · rw [if_pos hm, List.singleton_append] at h
    injection h with h1 _
    exact absurd h1 (by decide)
  · rw [if_neg hm, List.nil_append] at h
    cases hnc : natChars (m.natAbs / 10000) with
    | nil => exact natChars_ne_nil _ hnc
    | cons c cs =>
      rw [hnc, List.cons_append] at h
      injection h with h1 _
      have hcm : c ∈ natChars (m.natAbs / 10000) := by
        rw [hnc]
        exact List.mem_cons_self _ _
      exact (natChars_digits _ c hcm).2.2 h1

lemma parseNum_renderScaled (m : ℤ) :
    parseNum (renderScaled m) = (m : ℚ) / 10000 := by
  have hr : m.natAbs % 10000 < 10000 := Nat.mod_lt _ (by norm_num)
  have habs := parseAbs_split (m.natAbs / 10000) (m.natAbs % 10000) hr
  have hdm : (10000 : ℕ) * (m.natAbs / 10000) + m.natAbs % 10000 = m.natAbs :=
    Nat.div_add_mod m.natAbs 10000
  have hval : ((m.natAbs / 10000 : ℕ) : ℚ) + ((m.natAbs % 10000 : ℕ) : ℚ) / 10 ^ 4
      = (m.natAbs : ℚ) / 10000 := by
    have hcast : ((m.natAbs : ℚ))
        = ((10000 * (m.natAbs / 10000) + m.natAbs % 10000 : ℕ) : ℚ) := by
      exact_mod_cast congrArg (fun k : ℕ => (k : ℚ)) hdm.symm
    rw [hcast]
    push_cast
    ring
  unfold parseNum renderScaled
  by_cases hm : m < 0
  · rw [if_pos hm, List.singleton_append, List.cons_append]
    have hcond : (('-' :: (natChars (m.natAbs / 10000)
        ++ '.' :: pad4 (m.natAbs % 10000))).head?) = some '-' := rfl
    split
    · simp only [List.drop_one, List.tail_cons]
      rw [habs, hval]
      have h0 : |m| = -m := abs_of_neg hm
      have hna : ((m.natAbs : ℚ)) = -(m : ℚ) := by
        rw [Int.cast_natAbs]
        exact_mod_cast h0
      rw [hna]
      ring
    · rename_i hcon
      exact absurd hcond hcon
  · rw [if_neg hm, List.nil_append]
    have hne : ((natChars (m.natAbs / 10000) ++ '.' :: pad4 (m.natAbs % 10000)).head?)
        ≠ some '-' := by
      cases hnc : natChars (m.natAbs / 10000) with
      | nil => exact absurd hnc (natChars_ne_nil _)
      | cons c cs =>
        rw [List.cons_append, List.head?_cons]
        intro hcon
        have hcm : c ∈ natChars (m.natAbs / 10000) := by
          rw [hnc]
          exact List.mem_cons_self _ _
        exact (natChars_digits _ c hcm).2.1 (Option.some_injective _ hcon)
    split
    · rename_i hcon
      exact absurd hcon hne
    · rw [habs, hval]
      have h0 : |m| = m := abs_of_nonneg (le_of_not_lt hm)
      have hna : ((m.natAbs : ℚ)) = (m : ℚ) := by
        rw [Int.cast_natAbs]
        exact_mod_cast h0
      rw [hna]

lemma parseCell_renderCell (v : Val) : parseCell (renderCell v) = v.map round4 := by
  cases v with
  | none => rfl
  | some q =>
    unfold renderCell parseCell
    rw [if_neg (renderScaled_ne_nan _), parseNum_renderScaled]
    rfl

lemma round4_close (q : ℚ) : |round4 q - q| ≤ 1 / 10000 := by
  unfold round4
  have h := abs_sub_round (q * 10000)
  rw [abs_sub_comm] at h
  have h2 : ((round (q * 10000) : ℤ) : ℚ) / 10000 - q
      = (((round (q * 10000) : ℤ) : ℚ) - q * 10000) / 10000 := by
    ring
  rw [h2, abs_div, abs_of_pos (by norm_num : (0:ℚ) < 10000)]
  calc |((round (q * 10000) : ℤ) : ℚ) - q * 10000| / 10000
      ≤ (1 / 2) / 10000 := by
        exact (div_le_div_right (by norm_num)).mpr h
    _ ≤ 1 / 10000 := by norm_num

lemma take4_of_prefix {t d : List Char} (h : t.take 4 = ['t', 'x', 't', '.']) :
    (t ++ d).take 4 = ['t', 'x', 't', '.'] := by
  have hlen : 4 ≤ t.length := by
    have hl := congrArg List.length h
    rw [List.length_take] at hl
    simp at hl
    omega
  rw [List.take_append_eq_append_take, h]
  have h0 : 4 - t.length = 0 := by omega
  rw [h0, List.take_zero, List.append_nil]

lemma ensureTxt_hasTxt (p : List Char) : hasTxtSuffix (ensureTxt p) = true := by
  unfold ensureTxt
  split
  · rename_i h
    unfold hasTxtSuffix at h ⊢
    unfold fileBase at h
    rw [List.reverse_reverse] at h
    rw [decide_eq_true_eq] at h ⊢
    have hsplit := List.takeWhile_append_dropWhile (fun c => decide (c ≠ '/')) p.reverse
    conv_lhs => rw [← hsplit]
    exact take4_of_prefix h
  · unfold hasTxtSuffix
    rw [List.reverse_append, decide_eq_true_eq]
    rfl

lemma parseTable_exportTable (E S : List Val) :
    parseTable (exportTable E S)
      = (if S.all (fun v => v.isNone)
         then E.map (fun v => [v.map round4])
         else (E.zip S).map (fun p => [p.1.map round4, p.2.map round4])) := by
  unfold parseTable exportTable
  split
  · simp [parseCell_renderCell]
  · simp [parseCell_renderCell]

/-- Claim C5: the tab-separated histogram export renders each value
rounded to 4 decimals (NaN as the literal `NaN`, `.txt` appended to a
path whose basename lacks it), and re-parsing the table recovers every
E (and S) value as its 4-decimal rounding, which is within 1e-4 of the
original; NaN round-trips to NaN. -/
theorem exportHistogramData_roundtrip (E S : List Val) (q : ℚ) (path : List Char) :
    parseTable (exportTable E S)
      = (if S.all (fun v => v.isNone)
         then E.map (fun v => [v.map round4])
         else (E.zip S).map (fun p => [p.1.map round4, p.2.map round4])) ∧
    parseCell (renderCell (some q)) = some (round4 q) ∧
    |round4 q - q| ≤ 1 / 10000 ∧
    parseCell (renderCell none) = none ∧
    hasTxtSuffix (ensureTxt path) = true :=
  ⟨parseTable_exportTable E S, parseCell_renderCell (some q), round4_close q, rfl,
   ensureTxt_hasTxt path⟩

end DeepFRET
